import Mathlib

/-!
# Verification of the http-echo-server request pipeline

Shallow embedding of `src/echo-handler.ts` (functions `parseBody`,
`parseQuery`, `parseHeaders`, `createEchoResponse`, `handleRequest`).

Platform builtins used by the source are modelled as follows:
* `JSON.parse` is an abstract parameter `jsonParse : String → Option Js`
  (`none` models a thrown `SyntaxError`, `some v` a successful decode);
* `URLSearchParams` (the WHATWG application/x-www-form-urlencoded
  parser used both by `url.searchParams` and by the form-body branch)
  is modelled concretely by `searchParamsOf` below: split on `&`,
  drop empty pieces, split each piece at the first `=`, map `+` to a
  space and percent-decode both sides; the constructor strips one
  leading `?`.  Percent decoding is modelled at the code-point level
  (exact for ASCII payloads, which is all the claims exercise);
* `Headers.get` is a case-insensitive lookup; `Headers` iteration
  presents lower-cased names;
* JavaScript `parseInt(s, 10)` is `jsParseInt`: skip leading
  whitespace, optional sign, longest digit prefix, `NaN` when no
  digit is found;
* `new Date().toISOString()` is an explicit `now : String` argument;
  `server.requestIP(request)?.address ?? null` is a field of the
  server model.

A JavaScript promise rejection / thrown exception from the body read
is modelled by `Except`: `request.text()` yields `.error ()` when the
read fails and `.ok s` when the body buffers to the text `s`.
-/

set_option autoImplicit false

namespace EchoServer

/-- JavaScript values as they can appear in the `parsed` slot of a body
parse result: JSON values and flat string records. `Option Js` is used
where the source can hold JS `null` (`none` = `null`). -/
inductive Js where
  | bool (b : Bool)
  | str (s : String)
  | num (n : Int)
  | arr (xs : List Js)
  | obj (fields : List (String × Js))
deriving Repr

/-- Result of JavaScript `parseInt`: either an integer or `NaN`. -/
inductive JsNumber where
  | nan
  | int (n : Int)
deriving Repr, DecidableEq

/-- Lower-case a string character-wise (models JS `toLowerCase` for the
ASCII header names this program deals with). -/
def lowerStr (s : String) : String :=
  String.mk (s.data.map Char.toLower)

/-- Wire-level header list of a request, in arrival order. -/
abbrev HeaderList := List (String × String)

/-- Model of `Headers.get(name)`: case-insensitive lookup, first match,
`none` for an absent header (JS `null`). -/
def headersGet (hs : HeaderList) (name : String) : Option String :=
  (hs.find? (fun p => lowerStr p.1 == lowerStr name)).map (·.2)

/-- Model of the WHATWG `URL` object as far as the source reads it:
`hostname`, `pathname` and `search` (the `?`-prefixed query string,
`""` when the URL has no query), produced by the platform's URL parser
from `request.url`. -/
structure URLModel where
  hostname : String
  pathname : String
  search : String
deriving Repr, DecidableEq

/-- Model of a fetch-API `Request` as the handler consumes it:
`method`, header list, the raw URL string together with the platform's
parse of it, and the outcome of `await request.text()` (`.error ()`
models a stream/read failure that would reject the promise). -/
structure RequestModel where
  method : String
  headers : HeaderList
  urlString : String
  url : URLModel
  bodyText : Except Unit String
deriving Repr

/-- Model of the Bun `Server` handle the handler receives: the bound
port and hostname, and the result of `server.requestIP(request)?.address`
(`none` when unavailable). -/
structure ServerModel where
  port : Nat
  hostname : String
  requestIP : Option String
deriving Repr, DecidableEq

/-! ## WHATWG application/x-www-form-urlencoded parsing (platform model) -/

/-- Numeric value of a hex digit, `none` for a non-hex character. -/
def hexVal (c : Char) : Option Nat :=
  if '0' ≤ c ∧ c ≤ '9' then some (c.toNat - 48)
  else if 'A' ≤ c ∧ c ≤ 'F' then some (c.toNat - 55)
  else if 'a' ≤ c ∧ c ≤ 'f' then some (c.toNat - 87)
  else none

/-- Worker for `percentDecode`, structurally recursive on a fuel bound
so that it evaluates inside the kernel.  Each step consumes at least
one character, so fuel `l.length` never runs out. -/
def percentDecodeAux : Nat → List Char → List Char
  | 0, l => l
  | _ + 1, [] => []
  | fuel + 1, c :: rest =>
    if c = '%' then
      match rest with
      | c1 :: c2 :: rest2 =>
        match hexVal c1, hexVal c2 with
        | some h, some l => Char.ofNat (16 * h + l) :: percentDecodeAux fuel rest2
        | _, _ => '%' :: percentDecodeAux fuel (c1 :: c2 :: rest2)
      | _ => '%' :: percentDecodeAux fuel rest
    else c :: percentDecodeAux fuel rest

/-- Percent-decoding: `%XY` with two hex digits becomes the code point
`16*X + Y`; a `%` not followed by two hex digits is kept literally. -/
def percentDecode (l : List Char) : List Char :=
  percentDecodeAux l.length l

/-- Decode one name or value: `+` becomes a space, then percent-decode. -/
def decodeComponent (cs : List Char) : String :=
  String.mk (percentDecode (cs.map (fun c => if c = '+' then ' ' else c)))

/-- Split a `key=value` piece at its first `=`; a piece with no `=` is
all name with an empty value. -/
def splitFirstEq : List Char → List Char × List Char
  | [] => ([], [])
  | '=' :: rest => ([], rest)
  | c :: rest =>
    let p := splitFirstEq rest
    (c :: p.1, p.2)

/-- Split a character list on `&` into pieces (the separators are
dropped; empty pieces are kept and filtered out by the caller). -/
def splitAmp : List Char → List (List Char)
  | [] => [[]]
  | '&' :: rest => [] :: splitAmp rest
  | c :: rest =>
    match splitAmp rest with
    | [] => [[c]]
    | g :: gs => (c :: g) :: gs

/-- The WHATWG urlencoded parser on a query string (no `?` stripping):
split on `&`, skip empty pieces, decode each `key=value` piece. -/
def urlencodedParse (s : String) : List (String × String) :=
  (splitAmp s.data).filterMap fun piece =>
    if piece = [] then none
    else
      let p := splitFirstEq piece
      some (decodeComponent p.1, decodeComponent p.2)

/-- Model of `new URLSearchParams(init)` (also of `url.searchParams`,
with `init` the URL's `search`): strip one leading `?`, then parse. -/
def searchParamsOf (init : String) : List (String × String) :=
  urlencodedParse (match init.data with
    | '?' :: rest => String.mk rest
    | _ => init)

/-! ## JavaScript record (plain object) used as a string map -/

/-- JS object property assignment `r[k] = v`: update the value in place
when the key exists, append otherwise. -/
def recordSet : List (String × String) → String → String → List (String × String)
  | [], k, v => [(k, v)]
  | p :: ps, k, v =>
    if p.1 = k then (k, v) :: ps else p :: recordSet ps k v

/-- JS property read `r[k]`, `none` when the key is absent. -/
def recordGet : List (String × String) → String → Option String
  | [], _ => none
  | p :: ps, k => if p.1 = k then some p.2 else recordGet ps k

/-- Fold an ordered pair list into a record, assigning each pair in
order (so a later pair with the same key overwrites an earlier one). -/
def buildRecord (ps : List (String × String)) : List (String × String) :=
  ps.foldl (fun r p => recordSet r p.1 p.2) []

/-- Value of the last pair with key `k` in an ordered pair list. -/
def lastVal : List (String × String) → String → Option String
  | [], _ => none
  | p :: ps, k =>
    match lastVal ps k with
    | some v => some v
    | none => if p.1 = k then some p.2 else none

/-! ## JavaScript parseInt -/

/-- Value of a digit string read in base 10. -/
def digitsVal (ds : List Char) : Nat :=
  ds.foldl (fun a c => a * 10 + (c.toNat - 48)) 0

/-- JavaScript `parseInt(s, 10)`: skip leading whitespace, optional
sign, then the longest digit prefix; `NaN` when that prefix is empty. -/
def jsParseInt (s : String) : JsNumber :=
  let cs := s.data.dropWhile (·.isWhitespace)
  let sign : Int := if cs.head? = some '-' then -1 else 1
  let rest := if cs.head? = some '-' ∨ cs.head? = some '+' then cs.tail else cs
  let digits := rest.takeWhile (·.isDigit)
  if digits = [] then .nan
  else .int (sign * (digitsVal digits : Int))

/-- Executable substring test, modelling JS `String.prototype.includes`
(case-sensitive). -/
def listIncludes (sub : List Char) : List Char → Bool
  | [] => sub.isEmpty
  | c :: rest => sub.isPrefixOf (c :: rest) || listIncludes sub rest

/-- `s.includes(sub)` on strings. -/
def strIncludes (s sub : String) : Bool :=
  listIncludes sub.data s.data

/-- `contentType?.includes(sub)`: optional chaining on a nullable
string yields `undefined` (falsy) when the string is `null`. -/
def ctIncludes (ct : Option String) (sub : String) : Bool :=
  match ct with
  | some s => strIncludes s sub
  | none => false

/-! ## The echo handler itself (translated from src/echo-handler.ts) -/

/-- The record `{ parsed, raw }` returned by `parseBody`; `none` models
JS `null` in either slot. -/
structure BodyResult where
  parsed : Option Js
  raw : Option String
deriving Repr

/-- `parseBody(request)` from src/echo-handler.ts.  `jsonParse` is the
platform's `JSON.parse` (abstract; `none` models a thrown syntax
error).  The `!rawBody || rawBody.length === 0` guard of the source
collapses to emptiness of the buffered text, since the only falsy
string is `""`. -/
def parseBody (jsonParse : String → Option Js) (request : RequestModel) : BodyResult :=
  let contentType := headersGet request.headers "content-type"
  if request.method = "GET" ∨ request.method = "HEAD" ∨ request.method = "OPTIONS" then
    { parsed := none, raw := none }
  else
    match request.bodyText with
    | .error _ => { parsed := none, raw := none }
    | .ok rawBody =>
      if rawBody = "" then
        { parsed := none, raw := none }
      else if ctIncludes contentType "application/json" then
        match jsonParse rawBody with
        | some v => { parsed := some v, raw := some rawBody }
        | none => { parsed := none, raw := some rawBody }
      else if ctIncludes contentType "application/x-www-form-urlencoded" then
        let formData := buildRecord (searchParamsOf rawBody)
        { parsed := some (Js.obj (formData.map fun p => (p.1, Js.str p.2))),
          raw := some rawBody }
      else
        { parsed := none, raw := some rawBody }

/-- `parseQuery(url)` from src/echo-handler.ts: iterate
`url.searchParams` in order into a record. -/
def parseQuery (url : URLModel) : List (String × String) :=
  buildRecord (searchParamsOf url.search)

/-- `parseHeaders(headers)` from src/echo-handler.ts: the `Headers`
object iterates with lower-cased names; each entry is assigned into a
record. -/
def parseHeaders (hs : HeaderList) : List (String × String) :=
  buildRecord (hs.map fun p => (lowerStr p.1, p.2))

/-- The `request` part of an `EchoResponse` (src/types.ts). -/
structure EchoRequestInfo where
  method : String
  url : String
  path : String
  query : List (String × String)
  headers : List (String × String)
  body : Option Js
  bodyRaw : Option String
  contentType : Option String
  contentLength : Option JsNumber
deriving Repr

/-- The `client` part of an `EchoResponse` (src/types.ts). -/
structure ClientInfo where
  ip : Option String
  userAgent : Option String
deriving Repr, DecidableEq

/-- The `server` part of an `EchoResponse` (src/types.ts). -/
structure ServerInfo where
  hostname : String
  port : Nat
deriving Repr, DecidableEq

/-- `EchoResponse` (src/types.ts). -/
structure EchoResponse where
  timestamp : String
  request : EchoRequestInfo
  client : ClientInfo
  server : ServerInfo
deriving Repr

/-- `createEchoResponse(request, server)` from src/echo-handler.ts.
`now` is the value of `new Date().toISOString()`.  The content-length
slot reproduces the source's truthiness test
`headers.get("content-length") ? parseInt(..., 10) : null`: the empty
string is falsy, so an empty header also yields `null`. -/
def createEchoResponse (jsonParse : String → Option Js) (now : String)
    (request : RequestModel) (server : ServerModel) : EchoResponse :=
  let url := request.url
  let bodyRes := parseBody jsonParse request
  let headers := parseHeaders request.headers
  { timestamp := now
    request :=
      { method := request.method
        url := request.urlString
        path := url.pathname
        query := parseQuery url
        headers := headers
        body := bodyRes.parsed
        bodyRaw := bodyRes.raw
        contentType := headersGet request.headers "content-type"
        contentLength :=
          match headersGet request.headers "content-length" with
          | some s => if s = "" then none else some (jsParseInt s)
          | none => none }
    client :=
      { ip := server.requestIP
        userAgent := headersGet request.headers "user-agent" }
    server :=
      { hostname := url.hostname
        port := server.port } }

/-- A wire response as `handleRequest` builds it; the body is the
snapshot (serialized on the wire by the platform's `JSON.stringify`,
out of scope here). -/
structure ResponseModel where
  status : Nat
  headers : List (String × String)
  body : EchoResponse
deriving Repr

/-- `handleRequest(request, server)` from src/echo-handler.ts. -/
def handleRequest (jsonParse : String → Option Js) (now : String)
    (request : RequestModel) (server : ServerModel) : ResponseModel :=
  { status := 200
    headers := [("Content-Type", "application/json"),
                ("X-Echo-Server", "http-echo-server/1.0.0")]
    body := createEchoResponse jsonParse now request server }

/-! ## Concrete fixtures used to instantiate the theorems -/

/-- A `JSON.parse` behaviour that throws on every input.  Faithful to
the real `JSON.parse` on the non-JSON bodies used below (such as
`a=1`), where it raises a `SyntaxError`. -/
def jpNone : String → Option Js := fun _ => none

/-- A `JSON.parse` behaviour that decodes the body `[1]` to the array
`[1]` (as the real `JSON.parse` does) and throws on everything else. -/
def jpArr : String → Option Js :=
  fun s => if s = "[1]" then some (Js.arr [Js.num 1]) else none

/-- A `JSON.parse` behaviour that decodes every input to the string
value `"J"`; used to make the JSON dispatch branch visible. -/
def jpConst : String → Option Js := fun _ => some (Js.str "J")

/-- A URL with no query string. -/
def urlPlain : URLModel :=
  { hostname := "localhost", pathname := "/test", search := "" }

/-- A GET request carrying body bytes on the wire. -/
def reqGetWithBody : RequestModel :=
  { method := "GET", headers := [], urlString := "http://localhost/test"
    url := urlPlain, bodyText := Except.ok "ignored-bytes" }

/-- A POST request with a JSON content type and body `[1]`. -/
def reqPostJson : RequestModel :=
  { method := "POST", headers := [("Content-Type", "application/json")]
    urlString := "http://localhost/test", url := urlPlain
    bodyText := Except.ok "[1]" }

/-- A POST request with a form content type and a duplicate key in the
body. -/
def reqPostForm : RequestModel :=
  { method := "POST"
    headers := [("Content-Type", "application/x-www-form-urlencoded")]
    urlString := "http://localhost/test", url := urlPlain
    bodyText := Except.ok "a=1&b=2&a=3" }

/-- A POST request whose content type contains both the JSON and the
form-urlencoded substrings. -/
def reqPostBoth : RequestModel :=
  { method := "POST"
    headers := [("Content-Type",
      "application/x-www-form-urlencoded; application/json")]
    urlString := "http://localhost/test", url := urlPlain
    bodyText := Except.ok "a=1" }

/-- A POST request with an empty body. -/
def reqPostEmpty : RequestModel :=
  { method := "POST", headers := [], urlString := "http://localhost/test"
    url := urlPlain, bodyText := Except.ok "" }

/-- A POST request declaring a non-numeric content length. -/
def reqCLBad : RequestModel :=
  { method := "POST", headers := [("Content-Length", "abc")]
    urlString := "http://localhost/test", url := urlPlain
    bodyText := Except.ok "hi" }

/-- A POST request declaring the content length `27`. -/
def reqCLGood : RequestModel :=
  { method := "POST", headers := [("Content-Length", "27")]
    urlString := "http://localhost/test", url := urlPlain
    bodyText := Except.ok "hi" }

/-- The server binding of the README example: bound to `0.0.0.0:3000`,
receiving a request addressed to `localhost`. -/
def srvEx : ServerModel :=
  { port := 3000, hostname := "0.0.0.0", requestIP := some "127.0.0.1" }

/-- A fixed snapshot-creation instant. -/
def nowEx : String := "2026-10-12T00:00:00.000Z"

/-! ## Auxiliary lemmas -/

/-- A decimal digit is not a whitespace character. -/
theorem digit_not_ws (c : Char) (h : c.isDigit = true) : c.isWhitespace = false := by
  by_contra hw
  rw [Bool.not_eq_false] at hw
  simp only [Char.isWhitespace, Bool.or_eq_true, decide_eq_true_eq] at hw
  rcases hw with ((h1 | h1) | h1) | h1 <;> subst h1 <;> exact absurd h (by decide)

/-- `takeWhile` keeps a list all of whose elements satisfy the predicate. -/
theorem takeWhile_all {p : Char → Bool} (l : List Char) (h : ∀ c ∈ l, p c = true) :
    l.takeWhile p = l := by
  induction l with
  | nil => rfl
  | cons c cs ih =>
    rw [List.takeWhile_cons, if_pos (h c (List.mem_cons_self c cs))]
    rw [ih (fun x hx => h x (List.mem_cons_of_mem c hx))]

/-- Dropping leading whitespace leaves an all-digit list unchanged. -/
theorem dropWhile_digits {l : List Char} (h : ∀ c ∈ l, c.isDigit = true) :
    l.dropWhile (·.isWhitespace) = l := by
  cases l with
  | nil => rfl
  | cons c cs =>
    rw [List.dropWhile_cons, if_neg]
    simp [digit_not_ws c (h c (List.mem_cons_self c cs))]

/-- `parseInt` evaluates a non-empty all-digit string to its decimal value. -/
theorem jsParseInt_digits (cs : List Char) (h1 : cs ≠ []) (h2 : ∀ c ∈ cs, c.isDigit = true) :
    jsParseInt (String.mk cs) = .int (digitsVal cs) := by
  unfold jsParseInt
  dsimp only
  rw [dropWhile_digits h2]
  cases cs with
  | nil => exact absurd rfl h1
  | cons c cs' =>
    have hd : c.isDigit = true := h2 c (List.mem_cons_self c cs')
    have hminus : ¬((c :: cs').head? = some '-') := by
      simp only [List.head?_cons, Option.some_inj]
      intro hc; subst hc; exact absurd hd (by decide)
    have hplus : ¬((c :: cs').head? = some '+') := by
      simp only [List.head?_cons, Option.some_inj]
      intro hc; subst hc; exact absurd hd (by decide)
    have hor : ¬((c :: cs').head? = some '-' ∨ (c :: cs').head? = some '+') := by
      rintro (h | h)
      exacts [hminus h, hplus h]
    rw [if_neg hor, if_neg hminus, takeWhile_all _ h2, if_neg h1, one_mul]

/-- Reading a record after an assignment: the assigned key yields the
new value, every other key is unaffected. -/
theorem recordGet_recordSet (r : List (String × String)) (k v k' : String) :
    recordGet (recordSet r k v) k' = if k' = k then some v else recordGet r k' := by
  induction r with
  | nil =>
    simp only [recordSet, recordGet]
    by_cases h : k' = k
    · subst h; simp
    · rw [if_neg (fun hh => h hh.symm), if_neg h]
  | cons p ps ih =>
    simp only [recordSet]
    by_cases hp : p.1 = k
    · rw [if_pos hp]
      by_cases hk : k' = k
      · subst hk; simp [recordGet]
      · simp only [recordGet, if_neg (fun hh : k = k' => hk hh.symm), if_neg hk,
          if_neg (fun hh : p.1 = k' => hk (hh.symm.trans hp))]
    · rw [if_neg hp]
      by_cases hk : k' = k
      · subst hk
        simp only [recordGet, if_neg (fun hh : p.1 = k' => hp hh), ih, if_pos rfl]
      · by_cases hpk : p.1 = k'
        · simp only [recordGet, if_pos hpk, if_neg hk]
        · simp only [recordGet, if_neg hpk, ih, if_neg hk]

/-- Assigning an ordered pair list into a record, generalized over the
starting record: a key reads as the last value assigned for it. -/
theorem recordGet_foldl (ps : List (String × String)) (r : List (String × String)) (k : String) :
    recordGet (ps.foldl (fun r p => recordSet r p.1 p.2) r) k =
      match lastVal ps k with
      | some v => some v
      | none => recordGet r k := by
  induction ps generalizing r with
  | nil => simp [lastVal]
  | cons p ps ih =>
    simp only [List.foldl_cons, lastVal, ih, recordGet_recordSet]
    cases hl : lastVal ps k with
    | some v => simp
    | none =>
      by_cases hk : p.1 = k
      · subst hk; simp
      · rw [if_neg (fun hh : k = p.1 => hk hh.symm), if_neg hk]

/-- Last-write-wins: reading a key out of `buildRecord ps` yields the
value of the last pair in `ps` carrying that key. -/
theorem recordGet_buildRecord (ps : List (String × String)) (k : String) :
    recordGet (buildRecord ps) k = lastVal ps k := by
  rw [buildRecord, recordGet_foldl]
  cases lastVal ps k <;> simp [recordGet]

/-- Every branch of `parseBody` returns either the all-null record or a
record whose `raw` slot is populated. -/
theorem parseBody_shape (jp : String → Option Js) (req : RequestModel) :
    parseBody jp req = ⟨none, none⟩ ∨ ∃ s, (parseBody jp req).raw = some s := by
  unfold parseBody
  dsimp only
  repeat' first
    | exact Or.inl rfl
    | exact Or.inr ⟨_, rfl⟩
    | split

/-- The method gate of `parseBody`. -/
theorem parseBody_gate (jp : String → Option Js) (req : RequestModel)
    (h : req.method = "GET" ∨ req.method = "HEAD" ∨ req.method = "OPTIONS") :
    parseBody jp req = ⟨none, none⟩ := by
  unfold parseBody
  dsimp only
  rw [if_pos h]

/-- The JSON dispatch branch of `parseBody`: whenever the content type
contains `application/json`, the result is the `JSON.parse` outcome
(`none` on a thrown syntax error) paired with the raw text. -/
theorem parseBody_json (jp : String → Option Js) (req : RequestModel) (raw : String)
    (hm : ¬(req.method = "GET" ∨ req.method = "HEAD" ∨ req.method = "OPTIONS"))
    (hb : req.bodyText = .ok raw) (hne : raw ≠ "")
    (hct : ctIncludes (headersGet req.headers "content-type") "application/json" = true) :
    parseBody jp req = { parsed := jp raw, raw := some raw } := by
  unfold parseBody
  dsimp only
  rw [if_neg hm, hb]
  simp only [hne, hct]
  cases jp raw <;> simp

/-- The form-urlencoded dispatch branch of `parseBody`. -/
theorem parseBody_form (jp : String → Option Js) (req : RequestModel) (raw : String)
    (hm : ¬(req.method = "GET" ∨ req.method = "HEAD" ∨ req.method = "OPTIONS"))
    (hb : req.bodyText = .ok raw) (hne : raw ≠ "")
    (hj : ctIncludes (headersGet req.headers "content-type") "application/json" = false)
    (hf : ctIncludes (headersGet req.headers "content-type") "application/x-www-form-urlencoded" = true) :
    parseBody jp req =
      { parsed := some (Js.obj ((buildRecord (searchParamsOf raw)).map fun p => (p.1, Js.str p.2)))
        raw := some raw } := by
  unfold parseBody
  dsimp only
  rw [if_neg hm, hb]
  simp only [hne, hj, hf]
  simp

/-! ## Claim theorems -/

/-- C1: for every request whose method is GET, HEAD or OPTIONS,
`parseBody` returns `{parsed: null, raw: null}` whatever the outcome of
the body-read operation would have been (so the read is never
consumed), and consequently the snapshot's `body` and `bodyRaw` are
both null for these methods. -/
theorem parseBody_method_gate (jp : String → Option Js) (req : RequestModel)
    (h : req.method = "GET" ∨ req.method = "HEAD" ∨ req.method = "OPTIONS") :
    (∀ b : Except Unit String, parseBody jp { req with bodyText := b } = ⟨none, none⟩) ∧
    ∀ now srv, (createEchoResponse jp now req srv).request.body = none ∧
      (createEchoResponse jp now req srv).request.bodyRaw = none := by
  have hgate : ∀ b : Except Unit String, parseBody jp { req with bodyText := b } = ⟨none, none⟩ := by
    intro b
    unfold parseBody
    dsimp only
    rw [if_pos h]
  refine ⟨hgate, fun now srv => ?_⟩
  have hr := hgate req.bodyText
  have hb : (createEchoResponse jp now req srv).request.body = (parseBody jp req).parsed := rfl
  have hw : (createEchoResponse jp now req srv).request.bodyRaw = (parseBody jp req).raw := rfl
  constructor
  · rw [hb, show parseBody jp req = ⟨none, none⟩ from hr]
  · rw [hw, show parseBody jp req = ⟨none, none⟩ from hr]

/-- C1 witness: a GET request carrying body bytes still yields the
all-null parse result and a null snapshot body. -/
theorem parseBody_method_gate_witness :
    parseBody jpNone reqGetWithBody = ⟨none, none⟩ ∧
    (createEchoResponse jpNone nowEx reqGetWithBody srvEx).request.body = none :=
  ⟨(parseBody_method_gate jpNone reqGetWithBody (Or.inl rfl)).1 (Except.ok "ignored-bytes"),
   ((parseBody_method_gate jpNone reqGetWithBody (Or.inl rfl)).2 nowEx srvEx).1⟩

/-- C2: for a request whose buffered body is non-empty (its method is
not gated, so the body is actually read) and whose content type
contains `application/json`, a successful `JSON.parse` yields
`parsed` = the decoded value with `raw` = the original text, and a
thrown syntax error yields `parsed` = null with `raw` = the original
text; `parseBody` is total, so it never throws. -/
theorem parseBody_json_contract (jp : String → Option Js) (req : RequestModel) (raw : String)
    (hm : ¬(req.method = "GET" ∨ req.method = "HEAD" ∨ req.method = "OPTIONS"))
    (hb : req.bodyText = .ok raw) (hne : raw ≠ "")
    (hct : ctIncludes (headersGet req.headers "content-type") "application/json" = true) :
    (∀ v, jp raw = some v → parseBody jp req = { parsed := some v, raw := some raw }) ∧
    (jp raw = none → parseBody jp req = { parsed := none, raw := some raw }) := by
  have h := parseBody_json jp req raw hm hb hne hct
  exact ⟨fun v hv => by rw [h, hv], fun hv => by rw [h, hv]⟩

/-- C2 witness: a POST with content type `application/json` and body
`[1]` parses to the decoded array with the raw text preserved. -/
theorem parseBody_json_contract_witness :
    parseBody jpArr reqPostJson = { parsed := some (Js.arr [Js.num 1]), raw := some "[1]" } :=
  (parseBody_json_contract jpArr reqPostJson "[1]" (by decide) rfl (by decide) rfl).1
    (Js.arr [Js.num 1]) rfl

/-- C3 counterexample: with the declared content-length header `abc`
(non-numeric), the snapshot's `contentLength` is `NaN`, not null as
the claim states. -/
theorem contentLength_nonnumeric_cex :
    headersGet reqCLBad.headers "content-length" = some "abc" ∧
    (createEchoResponse jpNone nowEx reqCLBad srvEx).request.contentLength = some JsNumber.nan ∧
    some JsNumber.nan ≠ (none : Option JsNumber) := by
  refine ⟨rfl, rfl, ?_⟩
  simp

/-- C3 amended: the snapshot's `contentLength` is null when the
content-length header is absent or empty; otherwise it is
`parseInt(value, 10)` — the declared integer for a numeric value, and
`NaN` (not null) for a non-numeric one. -/
theorem contentLength_resolution (jp : String → Option Js) (now : String)
    (req : RequestModel) (srv : ServerModel) :
    (headersGet req.headers "content-length" = none →
      (createEchoResponse jp now req srv).request.contentLength = none) ∧
    (headersGet req.headers "content-length" = some "" →
      (createEchoResponse jp now req srv).request.contentLength = none) ∧
    (∀ s, headersGet req.headers "content-length" = some s → s ≠ "" →
      (createEchoResponse jp now req srv).request.contentLength = some (jsParseInt s)) ∧
    (∀ s, headersGet req.headers "content-length" = some s → s.data ≠ [] →
      (∀ c ∈ s.data, c.isDigit = true) →
      (createEchoResponse jp now req srv).request.contentLength =
        some (JsNumber.int (digitsVal s.data))) := by
  have hcl : (createEchoResponse jp now req srv).request.contentLength =
      (match headersGet req.headers "content-length" with
       | some s => if s = "" then none else some (jsParseInt s)
       | none => none) := rfl
  refine ⟨fun h => by rw [hcl, h], fun h => by rw [hcl, h]; simp,
    fun s hs hne => ?_, fun s hs hd hdig => ?_⟩
  · rw [hcl, hs]; simp [hne]
  · have hne : s ≠ "" := fun hh => hd (by rw [hh])
    rw [hcl, hs]
    simp [hne]
    exact jsParseInt_digits s.data hd hdig

/-- C3 witness: the declared content-length `27` resolves to the
integer 27 in the snapshot. -/
theorem contentLength_resolution_witness :
    (createEchoResponse jpNone nowEx reqCLGood srvEx).request.contentLength =
      some (JsNumber.int 27) := by
  have h := (contentLength_resolution jpNone nowEx reqCLGood srvEx).2.2.2 "27" rfl
    (by decide) (by decide)
  exact h

/-- C4: the snapshot's `server.hostname` is taken from the incoming
request's URL, not from the server binding: a request addressed to
`localhost` against a server bound to `0.0.0.0` reports hostname
`localhost`.  `server.port` does come from the binding. -/
theorem server_hostname_from_request_url :
    (createEchoResponse jpNone nowEx reqGetWithBody srvEx).server.hostname = "localhost" ∧
    reqGetWithBody.url.hostname = "localhost" ∧
    srvEx.hostname = "0.0.0.0" ∧
    (createEchoResponse jpNone nowEx reqGetWithBody srvEx).server.hostname ≠ srvEx.hostname ∧
    (createEchoResponse jpNone nowEx reqGetWithBody srvEx).server.port = srvEx.port := by
  refine ⟨rfl, rfl, rfl, ?_, rfl⟩
  decide

/-- C5: in every snapshot produced by `createEchoResponse`,
`bodyRaw == null` implies `body == null`, and `body != null` implies
`bodyRaw != null`; equivalently, across every branch of `parseBody`
the `parsed` slot is non-null only when the `raw` slot is. -/
theorem echo_body_raw_invariant (jp : String → Option Js) (now : String)
    (req : RequestModel) (srv : ServerModel) :
    ((parseBody jp req).raw = none → (parseBody jp req).parsed = none) ∧
    ((createEchoResponse jp now req srv).request.bodyRaw = none →
      (createEchoResponse jp now req srv).request.body = none) ∧
    ((createEchoResponse jp now req srv).request.body ≠ none →
      (createEchoResponse jp now req srv).request.bodyRaw ≠ none) := by
  have hbody : (createEchoResponse jp now req srv).request.body = (parseBody jp req).parsed := rfl
  have hraw : (createEchoResponse jp now req srv).request.bodyRaw = (parseBody jp req).raw := rfl
  rcases parseBody_shape jp req with h | ⟨s, hs⟩
  · rw [hbody, hraw, h]
    exact ⟨fun _ => rfl, fun _ => rfl, fun hne => absurd rfl hne⟩
  · refine ⟨fun hc => absurd hc ?_, fun hc => ?_, fun _ => ?_⟩
    · rw [hs]; simp
    · rw [hraw, hs] at hc; exact absurd hc (by simp)
    · rw [hraw, hs]; simp

/-- C5 witness: for a POST with an empty body, `bodyRaw` is null and
the invariant forces `body` to be null. -/
theorem echo_body_raw_invariant_witness :
    (createEchoResponse jpNone nowEx reqPostEmpty srvEx).request.body = none :=
  (echo_body_raw_invariant jpNone nowEx reqPostEmpty srvEx).2.1 rfl

/-- C6 counterexample: a content type containing both the
form-urlencoded and the JSON substring is dispatched to the JSON
branch, so for the body `a=1` (invalid JSON) `parsed` is null rather
than the form mapping the claim requires. -/
theorem parseBody_form_overlap_cex :
    ctIncludes (headersGet reqPostBoth.headers "content-type")
      "application/x-www-form-urlencoded" = true ∧
    parseBody jpNone reqPostBoth = ⟨none, some "a=1"⟩ ∧
    (parseBody jpNone reqPostBoth).parsed ≠ some (Js.obj [("a", Js.str "1")]) := by
  refine ⟨rfl, rfl, ?_⟩
  rw [show (parseBody jpNone reqPostBoth).parsed = none from rfl]
  simp

/-- C6 amended: for a request with a non-empty buffered body whose
content type contains `application/x-www-form-urlencoded` and does not
also contain `application/json` (the JSON branch takes precedence),
`parseBody` returns `parsed` = the flat string record built by folding
the percent-decoded `key=value` pairs in order, with a later duplicate
key overwriting an earlier one (the record reads back the last value
of each key), and `raw` = the original body text. -/
theorem parseBody_form_contract (jp : String → Option Js) (req : RequestModel) (raw : String)
    (hm : ¬(req.method = "GET" ∨ req.method = "HEAD" ∨ req.method = "OPTIONS"))
    (hb : req.bodyText = .ok raw) (hne : raw ≠ "")
    (hj : ctIncludes (headersGet req.headers "content-type") "application/json" = false)
    (hf : ctIncludes (headersGet req.headers "content-type") "application/x-www-form-urlencoded" = true) :
    parseBody jp req =
      { parsed := some (Js.obj ((buildRecord (searchParamsOf raw)).map fun p => (p.1, Js.str p.2)))
        raw := some raw } ∧
    ∀ k, recordGet (buildRecord (searchParamsOf raw)) k = lastVal (searchParamsOf raw) k :=
  ⟨parseBody_form jp req raw hm hb hne hj hf,
   fun k => recordGet_buildRecord (searchParamsOf raw) k⟩

/-- C6 witness: the form body `a=1&b=2&a=3` parses to the record with
`a` bound to its last value `3`, `raw` preserved. -/
theorem parseBody_form_contract_witness :
    parseBody jpNone reqPostForm =
      { parsed := some (Js.obj [("a", Js.str "3"), ("b", Js.str "2")])
        raw := some "a=1&b=2&a=3" } :=
  (parseBody_form_contract jpNone reqPostForm "a=1&b=2&a=3" (by decide) rfl (by decide) rfl rfl).1

/-- C7: `parseQuery` folds the decoded query parameters in order into a
record, so reading any key yields the value of its last occurrence
(last-write-wins); an absent or empty query string yields the empty
record (never null); keys and values are percent-decoded, as on the
query `?message=hello%20world&symbol=%26`. -/
theorem parseQuery_contract (url : URLModel) :
    (∀ k, recordGet (parseQuery url) k = lastVal (searchParamsOf url.search) k) ∧
    (url.search = "" → parseQuery url = []) ∧
    parseQuery { hostname := "localhost", pathname := "/test"
                 search := "?message=hello%20world&symbol=%26" } =
      [("message", "hello world"), ("symbol", "&")] := by
  refine ⟨fun k => recordGet_buildRecord (searchParamsOf url.search) k, fun h => ?_, rfl⟩
  unfold parseQuery
  rw [h]
  rfl

/-- C7 witness: a URL without a query string parses to the empty
record. -/
theorem parseQuery_contract_witness :
    parseQuery urlPlain = [] :=
  (parseQuery_contract urlPlain).2.1 rfl

/-- C8: for every request reaching the handler, `handleRequest`
returns status 200 with headers `Content-Type: application/json` and
`X-Echo-Server: http-echo-server/1.0.0`; being a total function of its
inputs, it has no failure path of its own. -/
theorem handleRequest_contract (jp : String → Option Js) (now : String)
    (req : RequestModel) (srv : ServerModel) :
    (handleRequest jp now req srv).status = 200 ∧
    (handleRequest jp now req srv).headers =
      [("Content-Type", "application/json"),
       ("X-Echo-Server", "http-echo-server/1.0.0")] :=
  ⟨rfl, rfl⟩

/-- C9: whenever the buffered body text has zero length, `parseBody`
returns `{parsed: null, raw: null}`, for any method. -/
theorem parseBody_empty_body (jp : String → Option Js) (req : RequestModel) (s : String)
    (hb : req.bodyText = .ok s) (hlen : s.length = 0) :
    parseBody jp req = ⟨none, none⟩ := by
  have hs : s = "" := by
    cases s with
    | mk data =>
      have hd : data = [] := List.length_eq_zero.mp hlen
      rw [hd]
  subst hs
  by_cases hm : req.method = "GET" ∨ req.method = "HEAD" ∨ req.method = "OPTIONS"
  · exact parseBody_gate jp req hm
  · unfold parseBody
    dsimp only
    rw [if_neg hm, hb]
    simp

/-- C9 witness: a POST with the empty body yields the all-null parse
result. -/
theorem parseBody_empty_body_witness :
    parseBody jpNone reqPostEmpty = ⟨none, none⟩ :=
  parseBody_empty_body jpNone reqPostEmpty "" rfl rfl

/-- C10: when a non-empty body's content type contains both the
`application/json` and the `application/x-www-form-urlencoded`
substrings, the JSON check runs first, so the body is interpreted as
JSON: the result is the `JSON.parse` outcome, never the form mapping
branch. -/
theorem parseBody_json_precedence (jp : String → Option Js) (req : RequestModel) (raw : String)
    (hm : ¬(req.method = "GET" ∨ req.method = "HEAD" ∨ req.method = "OPTIONS"))
    (hb : req.bodyText = .ok raw) (hne : raw ≠ "")
    (hj : ctIncludes (headersGet req.headers "content-type") "application/json" = true)
    (_hf : ctIncludes (headersGet req.headers "content-type") "application/x-www-form-urlencoded" = true) :
    parseBody jp req = { parsed := jp raw, raw := some raw } :=
  parseBody_json jp req raw hm hb hne hj

/-- C10 witness: with a content type containing both substrings and a
`JSON.parse` returning the string `"J"`, the result is the JSON outcome
and not the form record of the body `a=1`. -/
theorem parseBody_json_precedence_witness :
    parseBody jpConst reqPostBoth = { parsed := some (Js.str "J"), raw := some "a=1" } :=
  parseBody_json_precedence jpConst reqPostBoth "a=1" (by decide) rfl (by decide) rfl rfl

end EchoServer
